import Mathlib

/-!
Verification of the infra-genie scanning and cleaning core.

This file gives a shallow embedding of the parts of the repository that the
properties below talk about:

* `src/core/base_scanner.py` — `BaseScanner.scan`, the inventory-minus-used
  computation;
* `src/scanners/security_group_scanner.py` — `get_resources_in_use`,
  `get_unused_resources` and the per-source evidence collection;
* `src/core/region_manager.py` — `RegionManager.scan_regions`, the
  multi-region merge; and
* `src/cleaners/security_group_cleaner.py` — the deletion protocol
  (`delete_security_group`, `delete_batch`, `delete_with_confirmation`,
  `DeleteSummary.add_result`).

Modelling conventions: a Python call that may raise is an `Except String α`
value carrying the string representation of the exception; remote network
effects are inputs to the embedded functions (what the call would have
returned), and deletion functions additionally return the list of remote
delete calls they issued, so that theorems can speak about which calls were
made.  Wall-clock fields (`scan_time`, timestamps, durations) are omitted:
no property below mentions them.
-/

namespace InfraGenie

/-! ## Data model: resources and single-region scan results -/

/-- One security-group record as built by
`SecurityGroupScanner.get_all_resources`: keys `id`, `name`, `description`,
`vpc_id`, `is_default`, `tags`.  A missing or empty `id` is modelled as the
empty string (both are falsy in the Python truthiness test `if resource_id`). -/
structure Resource where
  id : String
  name : String := ""
  description : String := ""
  vpc_id : String := "N/A"
  is_default : Bool := false
  tags : List (String × String) := []
  deriving Repr, DecidableEq

/-- `ScanResult` from `src/core/base_scanner.py` (without the wall-clock
`scan_time` field). -/
structure ScanResult where
  resource_type : String
  region : String
  total_count : Nat
  unused_count : Nat
  unused_resources : List Resource
  errors : List String
  deriving Repr, DecidableEq

/-! ## BaseScanner.scan

`scan` runs two fallible steps — `get_all_resources` and
`get_resources_in_use` — each in its own `try/except` that records an error
string and substitutes an empty inventory (resp. empty used set), then keeps
every resource whose id is truthy and not in the used set. -/

/-- `BaseScanner.scan`, parameterised by the outcomes of its two fallible
sub-steps.  Mirrors `src/core/base_scanner.py` lines 409-448. -/
def scan (resource_type region : String)
    (fetchAll : Except String (List Resource))
    (fetchUsed : Except String (List String)) : ScanResult :=
  let fetched : List Resource × Nat × List String :=
    match fetchAll with
    | .ok rs => (rs, rs.length, [])
    | .error e => ([], 0, ["Failed to get all resources: " ++ e])
  let used : List String × List String :=
    match fetchUsed with
    | .ok u => (u, [])
    | .error e => ([], ["Failed to get resources in use: " ++ e])
  let unused : List Resource :=
    fetched.1.filter (fun r => r.id != "" && !(used.1.contains r.id))
  { resource_type := resource_type
    region := region
    total_count := fetched.2.1
    unused_count := unused.length
    unused_resources := unused
    errors := fetched.2.2 ++ used.2 }

/-! ## SecurityGroupScanner evidence gathering -/

/-- One iteration of the evidence-accumulation loop of
`SecurityGroupScanner.get_resources_in_use` (lines 302-308): each source is
run inside a `try/except Exception` that swallows its failure; a successful
source has its id set unioned into the running set.  A source is modelled by
the outcome of its fetch function. -/
def collectStep (acc : List String) (c : Except String (List String)) :
    List String :=
  match c with
  | .ok ids => acc ++ ids
  | .error _ => acc

/-- The whole evidence loop: fold `collectStep` over the sources, starting
from the empty set. -/
def collectUsed (sources : List (Except String (List String))) : List String :=
  sources.foldl collectStep []

/-- `SecurityGroupScanner.get_resources_in_use` (lines 290-316): union the
surviving collector outputs; when `exclude_default` is set, additionally call
`_get_default_security_groups` — that call is not wrapped in a `try/except`
here, so an exception raised by it propagates out (`.error`). -/
def get_resources_in_use (collectors : List (Except String (List String)))
    (exclude_default : Bool)
    (defaultFetch : Except String (List String)) :
    Except String (List String) :=
  let used := collectUsed collectors
  if exclude_default then
    match defaultFetch with
    | .ok d => .ok (used ++ d)
    | .error e => .error e
  else
    .ok used

/-- `SecurityGroupScanner.scan` is the inherited `BaseScanner.scan` with the
security-group implementations of the two fallible steps plugged in. -/
def sgScan (region : String) (fetchAll : Except String (List Resource))
    (collectors : List (Except String (List String)))
    (exclude_default : Bool)
    (defaultFetch : Except String (List String)) : ScanResult :=
  scan "security_group" region fetchAll
    (get_resources_in_use collectors exclude_default defaultFetch)

/-- `SecurityGroupScanner.get_unused_resources` (lines 336-348): the
override that, unlike the inline loop in `BaseScanner.scan`, double-checks
the `is_default` flag when `exclude_default` is set. -/
def get_unused_resources (all_sgs : List Resource) (used_ids : List String)
    (exclude_default : Bool) : List Resource :=
  all_sgs.filter (fun sg =>
    sg.id != "" && !(used_ids.contains sg.id)
      && !(exclude_default && sg.is_default))

/-! ## RegionManager: multi-region merge

`RegionManager.scan_regions` submits one `_scan_region` task per region and
folds the completed triples `(region, result, error)` into the aggregate in
completion order.  The completion-ordered stream of per-region outcomes is
the input of the model. -/

/-- `MultiRegionScanResult` from `src/core/region_manager.py` (without the
wall-clock `scan_time` field).  The two Python dicts are modelled as
association lists in insertion order. -/
structure MultiRegionScanResult where
  resource_type : String
  regions_scanned : List String
  total_resources : Nat
  total_unused : Nat
  results_by_region : List (String × ScanResult)
  errors : List (String × List String)
  deriving Repr, DecidableEq

/-- `RegionManager._scan_region` (lines 419-438): a task either yields
`(region, result, None)` or, when anything in it raises, catches the
exception and yields `(region, None, str(e))`. -/
def scan_region (region : String) (outcome : Except String ScanResult) :
    String × Option ScanResult × Option String :=
  match outcome with
  | .ok r => (region, some r, none)
  | .error e => (region, none, some e)

/-- The mutable accumulators of the merge loop in
`RegionManager.scan_regions` (lines 492-495). -/
structure MergeState where
  results_by_region : List (String × ScanResult)
  errors : List (String × List String)
  total_resources : Nat
  total_unused : Nat
  deriving Repr, DecidableEq

/-- One iteration of the `as_completed` merge loop (lines 511-522).  Note
the Python truthiness tests: `if error:` is false for `None` and for the
empty string, and `if result.errors:` is false for the empty list. -/
def mergeOne (st : MergeState) (x : String × Option ScanResult × Option String) :
    MergeState :=
  let region := x.1
  let result := x.2.1
  let error := x.2.2
  if (error.getD "") != "" then
    { st with errors := st.errors ++ [(region, [error.getD ""])] }
  else
    match result with
    | some r =>
      { results_by_region := st.results_by_region ++ [(region, r)]
        errors :=
          if r.errors.isEmpty then st.errors
          else st.errors ++ [(region, r.errors)]
        total_resources := st.total_resources + r.total_count
        total_unused := st.total_unused + r.unused_count }
    | none => st

/-- `RegionManager.scan_regions` (lines 486-536): fold the completed
per-region outcomes into the aggregate.  `completed` is the stream of
`(region, outcome)` pairs in completion order; `regions` is the requested
region list (becoming `regions_scanned`). -/
def scan_regions (resource_type : String) (regions : List String)
    (completed : List (String × Except String ScanResult)) :
    MultiRegionScanResult :=
  let final : MergeState :=
    completed.foldl (fun st p => mergeOne st (scan_region p.1 p.2))
      ⟨[], [], 0, 0⟩
  { resource_type := resource_type
    regions_scanned := regions
    total_resources := final.total_resources
    total_unused := final.total_unused
    results_by_region := final.results_by_region
    errors := final.errors }

/-! ## SecurityGroupCleaner: the deletion protocol -/

/-- `DeleteStatus` from `src/cleaners/security_group_cleaner.py`. -/
inductive DeleteStatus where
  | success
  | failed
  | skipped
  | dry_run
  deriving Repr, DecidableEq

/-- `DeleteResult` (without the wall-clock `timestamp` field). -/
structure DeleteResult where
  sg_id : String
  sg_name : String
  region : String
  status : DeleteStatus
  error_message : Option String := none
  deriving Repr, DecidableEq

/-- `DeleteSummary` (without the wall-clock `start_time`/`end_time`
fields). -/
structure DeleteSummary where
  total : Nat := 0
  deleted : Nat := 0
  failed : Nat := 0
  skipped : Nat := 0
  dry_run : Nat := 0
  results : List DeleteResult := []
  deriving Repr, DecidableEq

/-- `DeleteSummary.add_result` (lines 281-300): append the result and bump
the counter matching its status (the source `elif` chain). -/
def DeleteSummary.add_result (s : DeleteSummary) (r : DeleteResult) :
    DeleteSummary :=
  let s := { s with results := s.results ++ [r], total := s.total + 1 }
  match r.status with
  | .success => { s with deleted := s.deleted + 1 }
  | .failed => { s with failed := s.failed + 1 }
  | .skipped => { s with skipped := s.skipped + 1 }
  | .dry_run => { s with dry_run := s.dry_run + 1 }

/-- `SecurityGroupCleaner.ERROR_MESSAGES` (lines 397-420): the fixed
vocabulary of AWS error codes and their human-readable translations. -/
def ERROR_MESSAGES : List (String × String) :=
  [("DependencyViolation",
    "Security group is still in use by another resource. Detach it from all resources before deletion."),
   ("InvalidGroup.NotFound",
    "Security group no longer exists. It may have been deleted."),
   ("InvalidGroup.InUse",
    "Security group is referenced by another security group\x27s rules. Remove the references before deletion."),
   ("UnauthorizedOperation",
    "Insufficient permissions to delete this security group. Check your IAM policies."),
   ("InvalidPermission.NotFound",
    "Security group rule not found. The rule may have been modified."),
   ("CannotDelete",
    "Security group cannot be deleted. This may be a default VPC security group which cannot be removed.")]

/-- Python `ERROR_MESSAGES.get(code, default)`. -/
def errorMessagesGet (code dflt : String) : String :=
  match ERROR_MESSAGES.find? (fun p => p.1 == code) with
  | some p => p.2
  | none => dflt

/-- What the single remote `delete_security_group` call would do if issued:
succeed, raise a botocore `ClientError` (whose response may or may not carry
`Error.Code` and `Error.Message`; `srep` is `str(e)`), or raise any other
exception. -/
inductive RemoteOutcome where
  | ok
  | clientError (code : Option String) (message : Option String) (srep : String)
  | otherError (srep : String)
  deriving Repr, DecidableEq

/-- `SecurityGroupCleaner.delete_security_group` (lines 444-526).  Returns
the `DeleteResult` together with the list of remote delete calls issued
(identified by group id).  `dry_run` defaults to `True` as in the source
signature.  Every failure of the remote call is caught: the `ClientError`
branch translates a recognised `Error.Code`, falling back to the raw
`Error.Message` (or `str(e)` when that key is absent); the generic branch
uses `str(e)`. -/
def delete_security_group (region sg_id sg_name : String)
    (remote : RemoteOutcome) (dry_run : Bool := true) :
    DeleteResult × List String :=
  if dry_run then
    ({ sg_id := sg_id, sg_name := sg_name, region := region
       status := .dry_run }, [])
  else
    match remote with
    | .ok =>
      ({ sg_id := sg_id, sg_name := sg_name, region := region
         status := .success }, [sg_id])
    | .clientError code msg srep =>
      let error_code := code.getD "Unknown"
      let error_message := errorMessagesGet error_code (msg.getD srep)
      ({ sg_id := sg_id, sg_name := sg_name, region := region
         status := .failed, error_message := some error_message }, [sg_id])
    | .otherError srep =>
      ({ sg_id := sg_id, sg_name := sg_name, region := region
         status := .failed, error_message := some srep }, [sg_id])

/-- One input item of the batch-deletion loops: the security-group dict
(`sg.get("id", "")` and `sg.get("name", "Unknown")` are modelled by optional
fields) together with what its remote delete call would do if issued. -/
structure SGItem where
  id : Option String := none
  name : Option String := none
  remote : RemoteOutcome := .ok
  deriving Repr, DecidableEq

/-- The body of the `delete_batch` loop (lines 574-585).  The progress
callback is omitted from the model: its exceptions are caught and logged at
the call site and it cannot change the summary or the issued calls. -/
def batchStep (region : String) (dry_run : Bool)
    (acc : DeleteSummary × List String) (item : SGItem) :
    DeleteSummary × List String :=
  let r := delete_security_group region (item.id.getD "")
    (item.name.getD "Unknown") item.remote dry_run
  (acc.1.add_result r.1, acc.2 ++ r.2)

/-- `SecurityGroupCleaner.delete_batch` (lines 528-588): process the items
strictly in input order, accumulating the summary and the issued remote
calls.  `dry_run` defaults to `True` as in the source signature. -/
def delete_batch (region : String) (items : List SGItem)
    (dry_run : Bool := true) : DeleteSummary × List String :=
  items.foldl (batchStep region dry_run) ({}, [])

/-- The body of the `delete_with_confirmation` loop (lines 636-663): run the
confirmation callback under `try/except` (an exception counts as a decline),
skip on decline, otherwise delegate to `delete_security_group`.  `confirm`
is the outcome of the callback on this item. -/
def confirmStep (region : String) (dry_run : Bool)
    (item : SGItem) (confirm : Except String Bool) :
    DeleteResult × List String :=
  let confirmed :=
    match confirm with
    | .ok b => b
    | .error _ => false
  if !confirmed then
    ({ sg_id := item.id.getD "", sg_name := item.name.getD "Unknown"
       region := region, status := .skipped }, [])
  else
    delete_security_group region (item.id.getD "") (item.name.getD "Unknown")
      item.remote dry_run

/-- Accumulation of one confirmed-deletion outcome into the running summary
and call log (lines 657-663). -/
def confirmBatchStep (region : String) (dry_run : Bool)
    (acc : DeleteSummary × List String) (p : SGItem × Except String Bool) :
    DeleteSummary × List String :=
  let r := confirmStep region dry_run p.1 p.2
  (acc.1.add_result r.1, acc.2 ++ r.2)

/-- `SecurityGroupCleaner.delete_with_confirmation` (lines 590-666).  Each
item is paired with the outcome of the confirmation callback on it.
`dry_run` defaults to `False` as in the source signature. -/
def delete_with_confirmation (region : String)
    (items : List (SGItem × Except String Bool))
    (dry_run : Bool := false) : DeleteSummary × List String :=
  items.foldl (confirmBatchStep region dry_run) ({}, [])

/-! ## Derived views of the multi-region merge

The next two definitions are not source translations: they are closed-form
characterisations of what the `scan_regions` fold produces, proved equal to
the fold by `merge_foldl_spec` below and used to state and prove the
multi-region properties. -/

/-- The per-region results that the merge keeps: one entry per completed
region whose task returned a `ScanResult`. -/
def okResults (completed : List (String × Except String ScanResult)) :
    List (String × ScanResult) :=
  completed.filterMap (fun p =>
    match p.2 with
    | .ok r => some (p.1, r)
    | .error _ => none)

/-- The error entries that the merge records: hard task failures with a
non-empty message, and result-level error lists of successful regions. -/
def mergedErrors (completed : List (String × Except String ScanResult)) :
    List (String × List String) :=
  completed.filterMap (fun p =>
    match p.2 with
    | .ok r => if r.errors.isEmpty then none else some (p.1, r.errors)
    | .error e => if e == "" then none else some (p.1, [e]))

/-! ## Concrete instances used by counterexamples and failing-input
evaluations -/

/-- A successful single-region scan whose `ScanResult` carries a
partial-fetch error (one evidence sub-operation failed but the scan itself
returned). -/
def partialErrResult : ScanResult :=
  { resource_type := "security_group", region := "eu-west-1"
    total_count := 2, unused_count := 0, unused_resources := []
    errors := ["Failed to get resources in use: timeout"] }

/-- A fully clean successful single-region scan. -/
def okCleanResult : ScanResult :=
  { resource_type := "security_group", region := "us-west-2"
    total_count := 1, unused_count := 1
    unused_resources := [{ id := "sg-9" }], errors := [] }

/-- A one-element inventory holding the default security group of a VPC, as
`get_all_resources` would build it (`is_default` is set because the group
name is `default`). -/
def defaultSgInventory : List Resource :=
  [{ id := "sg-0abc", name := "default", vpc_id := "vpc-1", is_default := true }]

/-- The six evidence sources of `get_resources_in_use`, all succeeding and
all finding nothing: the account has no instance, ENI, RDS instance, load
balancer or rule reference. -/
def emptySources : List (Except String (List String)) :=
  [.ok [], .ok [], .ok [], .ok [], .ok [], .ok []]

/-! ## Helper lemmas about the evidence fold -/

theorem foldl_collectStep (l : List (Except String (List String)))
    (acc : List String) :
    List.foldl collectStep acc l = acc ++ List.foldl collectStep [] l := by
  induction l generalizing acc with
  | nil => simp
  | cons c l ih =>
    rw [List.foldl_cons, List.foldl_cons, ih (collectStep acc c),
      ih (collectStep [] c), ← List.append_assoc]
    congr 1
    cases c <;> simp [collectStep]

theorem collectUsed_append (a b : List (Except String (List String))) :
    collectUsed (a ++ b) = collectUsed a ++ collectUsed b := by
  unfold collectUsed
  rw [List.foldl_append, foldl_collectStep]

theorem collectUsed_error_cons (e : String)
    (l : List (Except String (List String))) :
    collectUsed (.error e :: l) = collectUsed l := by
  unfold collectUsed
  rw [List.foldl_cons]
  rfl

theorem collectUsed_okmap (l : List (List String)) :
    collectUsed (l.map Except.ok) = l.flatten := by
  induction l with
  | nil => rfl
  | cons a l ih =>
    unfold collectUsed
    rw [List.map_cons, List.foldl_cons, foldl_collectStep]
    simp only [collectStep, List.nil_append]
    rw [show List.foldl collectStep [] (l.map Except.ok) = collectUsed (l.map Except.ok) from rfl,
      ih, List.flatten_cons]

/-! ## Claim theorems: scanner -/

/-- Claim C1 (code bug), evaluated at the failing input: with the exemption
policy active (`exclude_default = true`), an inventory holding only the
default security group, all six evidence sources succeeding with empty
output, and the exemption-set computation (`_get_default_security_groups`)
failing — so that it contributes nothing to the evidence set — `scan()`
returns the exempt default group in `unused_resources`.  The second conjunct
shows the intended defense-in-depth filter does exist in the code: the
`get_unused_resources` override drops the same group on the same data, but
`scan()` never invokes that override. -/
theorem scan_returns_exempt_resource_when_exemption_fetch_fails :
    (sgScan "us-east-1" (.ok defaultSgInventory) emptySources true
        (.error "RequestLimitExceeded")).unused_resources
      = defaultSgInventory
    ∧ (defaultSgInventory.head?.map Resource.is_default) = some true
    ∧ get_unused_resources defaultSgInventory (collectUsed emptySources) true
      = [] := by
  decide

/-- Claim C3 (confirmed): every element of `scan()` output
`unused_resources` comes from the fetched inventory, and its id is absent
from any evidence set that `get_resources_in_use` returned (the exemption
set being already folded into that set). -/
theorem scan_unused_subset_of_inventory_and_disjoint_from_evidence
    (region : String) (fetchAll : Except String (List Resource))
    (collectors : List (Except String (List String)))
    (exclude_default : Bool) (defaultFetch : Except String (List String))
    (r : Resource)
    (hr : r ∈ (sgScan region fetchAll collectors exclude_default
        defaultFetch).unused_resources) :
    (∃ inv, fetchAll = .ok inv ∧ r ∈ inv)
    ∧ ∀ ev, get_resources_in_use collectors exclude_default defaultFetch
        = .ok ev → r.id ∉ ev := by
  cases hAll : fetchAll with
  | error e =>
    rw [hAll] at hr
    cases hUsed : get_resources_in_use collectors exclude_default defaultFetch
      <;> simp [sgScan, scan, hUsed] at hr
  | ok inv =>
    rw [hAll] at hr
    cases hUsed : get_resources_in_use collectors exclude_default defaultFetch with
    | error e =>
      refine ⟨⟨inv, rfl, ?_⟩, ?_⟩
      · simp only [sgScan, scan, hUsed] at hr
        exact (List.mem_filter.mp hr).1
      · intro ev hev
        exact Except.noConfusion hev
    | ok ev0 =>
      simp only [sgScan, scan, hUsed] at hr
      have h := List.mem_filter.mp hr
      refine ⟨⟨inv, rfl, h.1⟩, ?_⟩
      intro ev hev
      injection hev with hev2
      subst hev2
      have h2 := h.2
      simp only [Bool.and_eq_true, Bool.not_eq_true'] at h2
      intro hmem
      have h3 := h2.2
      simp at h3
      exact h3 hmem

/-- Claim C4 (confirmed): when exactly one evidence source raises and all
others succeed, `get_resources_in_use` still returns
(no exception escapes the per-source loop), and the returned evidence set is
exactly the union of the outputs of the other sources, plus the exemption
set when the exemption policy is active. -/
theorem evidence_isolated_from_single_collector_failure
    (pre post : List (List String)) (emsg : String)
    (exclude_default : Bool) (dflt : List String) :
    ∃ ev,
      get_resources_in_use
          (pre.map Except.ok ++ Except.error emsg :: post.map Except.ok)
          exclude_default (.ok dflt)
        = .ok ev
      ∧ ∀ x, x ∈ ev ↔ x ∈ (pre ++ post).flatten
          ∨ (exclude_default = true ∧ x ∈ dflt) := by
  have hcu : collectUsed
      (pre.map Except.ok ++ Except.error emsg :: post.map Except.ok)
      = (pre ++ post).flatten := by
    rw [collectUsed_append, collectUsed_error_cons, collectUsed_okmap,
      collectUsed_okmap, List.flatten_append]
  cases exclude_default with
  | false =>
    refine ⟨(pre ++ post).flatten, ?_, ?_⟩
    · simp [get_resources_in_use, hcu]
    · intro x; simp
  | true =>
    refine ⟨(pre ++ post).flatten ++ dflt, ?_, ?_⟩
    · simp [get_resources_in_use, hcu]
    · intro x
      simp only [List.mem_append, List.mem_flatten, true_and]

/-! ## Helper lemmas about the multi-region merge -/

theorem merge_foldl_spec (completed : List (String × Except String ScanResult))
    (st : MergeState) :
    completed.foldl (fun st p => mergeOne st (scan_region p.1 p.2)) st =
      { results_by_region := st.results_by_region ++ okResults completed
        errors := st.errors ++ mergedErrors completed
        total_resources := st.total_resources
          + ((okResults completed).map (fun q => q.2.total_count)).sum
        total_unused := st.total_unused
          + ((okResults completed).map (fun q => q.2.unused_count)).sum } := by
  induction completed generalizing st with
  | nil => simp [okResults, mergedErrors]
  | cons p tl ih =>
    obtain ⟨reg, o⟩ := p
    rw [List.foldl_cons, ih]
    cases o with
    | ok r =>
      cases hre : r.errors.isEmpty with
      | true =>
        have hre2 : r.errors = [] := by simpa using hre
        simp [scan_region, mergeOne, okResults, mergedErrors,
          List.filterMap_cons, hre, hre2, List.append_assoc, Nat.add_assoc]
      | false =>
        have hre2 : r.errors ≠ [] := by simpa using hre
        simp [scan_region, mergeOne, okResults, mergedErrors,
          List.filterMap_cons, hre, hre2, List.append_assoc, Nat.add_assoc]
    | error e =>
      cases he : (e == "") with
      | true =>
        simp only [beq_iff_eq] at he
        subst he
        simp [scan_region, mergeOne, okResults, mergedErrors,
          List.filterMap_cons]
      | false =>
        have hne : e ≠ "" := by simpa using he
        simp [scan_region, mergeOne, okResults, mergedErrors,
          List.filterMap_cons, hne, List.append_assoc]

theorem scan_regions_spec (rt : String) (regions : List String)
    (completed : List (String × Except String ScanResult)) :
    scan_regions rt regions completed =
      { resource_type := rt, regions_scanned := regions
        total_resources :=
          ((okResults completed).map (fun q => q.2.total_count)).sum
        total_unused :=
          ((okResults completed).map (fun q => q.2.unused_count)).sum
        results_by_region := okResults completed
        errors := mergedErrors completed } := by
  unfold scan_regions
  rw [merge_foldl_spec]
  simp

theorem okResults_append (a b : List (String × Except String ScanResult)) :
    okResults (a ++ b) = okResults a ++ okResults b := by
  unfold okResults
  rw [List.filterMap_append]

theorem mergedErrors_append (a b : List (String × Except String ScanResult)) :
    mergedErrors (a ++ b) = mergedErrors a ++ mergedErrors b := by
  unfold mergedErrors
  rw [List.filterMap_append]

theorem okResults_okmap (l : List (String × ScanResult)) :
    okResults (l.map (fun p => (p.1, Except.ok p.2))) = l := by
  induction l with
  | nil => rfl
  | cons p t ih => simp [okResults, List.filterMap_cons] at ih ⊢; exact ih

theorem okResults_error_cons (rf e : String)
    (t : List (String × Except String ScanResult)) :
    okResults ((rf, Except.error e) :: t) = okResults t := by
  simp [okResults, List.filterMap_cons]

theorem mergedErrors_error_cons (rf e : String) (h : e ≠ "")
    (t : List (String × Except String ScanResult)) :
    mergedErrors ((rf, Except.error e) :: t) = (rf, [e]) :: mergedErrors t := by
  simp [mergedErrors, List.filterMap_cons, h]

/-- Distinct keys make association-list lookup unambiguous. -/
theorem key_unique {β : Type} {l : List (String × β)}
    (h : (l.map Prod.fst).Nodup) {a : String} {b c : β}
    (hb : (a, b) ∈ l) (hc : (a, c) ∈ l) : b = c := by
  induction l with
  | nil => cases hb
  | cons p t ih =>
    rw [List.map_cons, List.nodup_cons] at h
    rcases List.mem_cons.mp hb with hb1 | hb1 <;>
      rcases List.mem_cons.mp hc with hc1 | hc1
    · rw [← hb1] at hc1
      exact ((Prod.mk.injEq _ _ _ _).mp hc1.symm).2
    · exfalso
      apply h.1
      rw [← hb1]
      exact List.mem_map.mpr ⟨(a, c), hc1, rfl⟩
    · exfalso
      apply h.1
      rw [← hc1]
      exact List.mem_map.mpr ⟨(a, b), hb1, rfl⟩
    · exact ih h.2 hb1 hc1

/-! ## Claim theorems: multi-region orchestration -/

/-- Claim C2 counterexample: region ap-south-1 raises an exception whose
string representation is empty; because the merge tests `if error:` with
Python truthiness, the aggregate records no error entry for it at all
(`errors = []`), so the claim that an error entry keyed by the failing
region always exists is false on the code. -/
theorem failing_region_with_empty_message_vanishes :
    (scan_regions "security_group" ["ap-south-1", "us-west-2"]
        [("ap-south-1", .error ""), ("us-west-2", .ok okCleanResult)]).errors
      = []
    ∧ (scan_regions "security_group" ["ap-south-1", "us-west-2"]
        [("ap-south-1", .error ""), ("us-west-2", .ok okCleanResult)]).results_by_region.map
          Prod.fst
      = ["us-west-2"] := by
  decide

/-- Claim C2 as amended: when exactly one region raises and the string
representation of its exception is non-empty, the aggregate keeps a
`ScanResult` for every other region, records an error entry keyed by the
failing region, and its totals are the sums over exactly the regions present
in `results_by_region`. -/
theorem partition_isolation_single_failure (rt : String)
    (regions : List String) (pre post : List (String × ScanResult))
    (rf emsg : String) (h : emsg ≠ "") :
    (scan_regions rt regions
        (pre.map (fun p => (p.1, Except.ok p.2))
          ++ (rf, Except.error emsg) :: post.map (fun p => (p.1, Except.ok p.2)))).results_by_region
      = pre ++ post
    ∧ (rf, [emsg]) ∈ (scan_regions rt regions
        (pre.map (fun p => (p.1, Except.ok p.2))
          ++ (rf, Except.error emsg) :: post.map (fun p => (p.1, Except.ok p.2)))).errors
    ∧ (scan_regions rt regions
        (pre.map (fun p => (p.1, Except.ok p.2))
          ++ (rf, Except.error emsg) :: post.map (fun p => (p.1, Except.ok p.2)))).total_resources
      = ((pre ++ post).map (fun p => p.2.total_count)).sum
    ∧ (scan_regions rt regions
        (pre.map (fun p => (p.1, Except.ok p.2))
          ++ (rf, Except.error emsg) :: post.map (fun p => (p.1, Except.ok p.2)))).total_unused
      = ((pre ++ post).map (fun p => p.2.unused_count)).sum := by
  rw [scan_regions_spec]
  have hok : okResults
      (pre.map (fun p => (p.1, Except.ok p.2))
        ++ (rf, Except.error emsg) :: post.map (fun p => (p.1, Except.ok p.2)))
      = pre ++ post := by
    rw [okResults_append, okResults_error_cons, okResults_okmap, okResults_okmap]
  refine ⟨hok, ?_, ?_, ?_⟩
  · rw [mergedErrors_append, mergedErrors_error_cons rf emsg h]
    exact List.mem_append_right _ (List.mem_cons_self _ _)
  · rw [hok, List.map_append, List.map_append, List.sum_append, List.sum_append]
  · rw [hok, List.map_append, List.map_append, List.sum_append, List.sum_append]

/-- Claim C5 counterexample: region eu-west-1 completes successfully but
its `ScanResult` carries a partial-fetch error; the merge then records the
region both in `results_by_region` and in `errors`, so the claim that no
region is simultaneously present in both mappings is false on the code. -/
theorem region_in_both_results_and_errors :
    (scan_regions "security_group" ["eu-west-1"]
        [("eu-west-1", .ok partialErrResult)]).results_by_region.map Prod.fst
      = ["eu-west-1"]
    ∧ (scan_regions "security_group" ["eu-west-1"]
        [("eu-west-1", .ok partialErrResult)]).errors.map Prod.fst
      = ["eu-west-1"] := by
  decide

/-- Claim C5 as amended: for distinct regions, a region whose evaluation
returned a `ScanResult` always appears in `results_by_region` and appears in
`errors` exactly when that `ScanResult` carries partial errors (so a region
can legitimately be in both mappings); a region whose evaluation raised with
a non-empty message appears only in `errors`, never in
`results_by_region`. -/
theorem region_membership_partition (rt : String) (regions : List String)
    (completed : List (String × Except String ScanResult))
    (hnd : (completed.map Prod.fst).Nodup) (reg : String) :
    (∀ r : ScanResult, (reg, Except.ok r) ∈ completed →
      ((reg, r) ∈ (scan_regions rt regions completed).results_by_region
        ∧ ((∃ es, (reg, es) ∈ (scan_regions rt regions completed).errors)
            ↔ r.errors ≠ [])))
    ∧ (∀ e : String, e ≠ "" → (reg, Except.error e) ∈ completed →
      ((∀ r : ScanResult,
          (reg, r) ∉ (scan_regions rt regions completed).results_by_region)
        ∧ (reg, [e]) ∈ (scan_regions rt regions completed).errors)) := by
  rw [scan_regions_spec]
  constructor
  · intro r hmem
    constructor
    · exact List.mem_filterMap.mpr ⟨(reg, Except.ok r), hmem, rfl⟩
    · constructor
      · rintro ⟨es, hes⟩
        obtain ⟨⟨reg2, o2⟩, hmem2, heq2⟩ := List.mem_filterMap.mp hes
        cases o2 with
        | ok r2 =>
          by_cases h2 : r2.errors.isEmpty
          · simp [h2] at heq2
          · simp only [h2, if_false, Option.some.injEq, Prod.mk.injEq] at heq2
            obtain ⟨rfl, rfl⟩ := heq2
            have := key_unique hnd hmem2 hmem
            injection this with hr2
            subst hr2
            simpa using h2
        | error e2 =>
          by_cases h2 : (e2 == "") = true
          · simp [h2] at heq2
          · simp only [h2, if_false, Option.some.injEq, Prod.mk.injEq] at heq2
            obtain ⟨rfl, rfl⟩ := heq2
            have := key_unique hnd hmem2 hmem
            exact Except.noConfusion this
      · intro hne
        refine ⟨r.errors, List.mem_filterMap.mpr ⟨(reg, Except.ok r), hmem, ?_⟩⟩
        have : r.errors.isEmpty = false := by
          cases hr : r.errors with
          | nil => exact absurd hr hne
          | cons a t => rfl
        simp [this]
  · intro e he hmem
    constructor
    · intro r hr
      obtain ⟨⟨reg2, o2⟩, hmem2, heq2⟩ := List.mem_filterMap.mp hr
      cases o2 with
      | ok r2 =>
        simp only [Option.some.injEq, Prod.mk.injEq] at heq2
        obtain ⟨rfl, rfl⟩ := heq2
        have := key_unique hnd hmem2 hmem
        exact Except.noConfusion this
      | error e2 => simp at heq2
    · refine List.mem_filterMap.mpr ⟨(reg, Except.error e), hmem, ?_⟩
      simp [he]

/-! ## Helper lemmas about the deletion protocol -/

theorem add_result_results (s : DeleteSummary) (r : DeleteResult) :
    (s.add_result r).results = s.results ++ [r] := by
  obtain ⟨_, _, _, status, _⟩ := r
  cases status <;> rfl

theorem delete_calls_single (region i n : String) (remote : RemoteOutcome) :
    (delete_security_group region i n remote false).2 = [i] := by
  cases remote <;> rfl

theorem batch_fold_calls_dry (region : String) (items : List SGItem)
    (acc : DeleteSummary × List String) :
    (items.foldl (batchStep region true) acc).2 = acc.2 := by
  induction items generalizing acc with
  | nil => rfl
  | cons it t ih =>
    rw [List.foldl_cons, ih]
    simp [batchStep, delete_security_group]

theorem batch_fold_results_dry (region : String) (items : List SGItem)
    (acc : DeleteSummary × List String) :
    (items.foldl (batchStep region true) acc).1.results
      = acc.1.results ++ items.map (fun it =>
          { sg_id := it.id.getD "", sg_name := it.name.getD "Unknown"
            region := region, status := DeleteStatus.dry_run }) := by
  induction items generalizing acc with
  | nil => simp
  | cons it t ih =>
    rw [List.foldl_cons, ih]
    simp [batchStep, delete_security_group, add_result_results]

theorem batch_fold_dry_count (region : String) (items : List SGItem)
    (acc : DeleteSummary × List String) :
    (items.foldl (batchStep region true) acc).1.dry_run
      = acc.1.dry_run + items.length := by
  induction items generalizing acc with
  | nil => rfl
  | cons it t ih =>
    rw [List.foldl_cons, ih]
    simp only [batchStep, delete_security_group, if_pos, DeleteSummary.add_result,
      List.length_cons]
    omega

theorem confirm_fold_results (region : String) (dry_run : Bool)
    (items : List (SGItem × Except String Bool))
    (acc : DeleteSummary × List String) :
    (items.foldl (confirmBatchStep region dry_run) acc).1.results
      = acc.1.results
        ++ items.map (fun p => (confirmStep region dry_run p.1 p.2).1) := by
  induction items generalizing acc with
  | nil => simp
  | cons it t ih =>
    rw [List.foldl_cons, ih]
    simp [confirmBatchStep, add_result_results]

theorem confirm_fold_calls (region : String) (dry_run : Bool)
    (items : List (SGItem × Except String Bool))
    (acc : DeleteSummary × List String) :
    (items.foldl (confirmBatchStep region dry_run) acc).2
      = acc.2
        ++ (items.map (fun p => (confirmStep region dry_run p.1 p.2).2)).flatten := by
  induction items generalizing acc with
  | nil => simp
  | cons it t ih =>
    rw [List.foldl_cons, ih]
    simp [confirmBatchStep, List.append_assoc]

theorem confirm_step_calls_dry (region : String)
    (p : SGItem × Except String Bool) :
    (confirmStep region true p.1 p.2).2 = [] := by
  obtain ⟨item, conf⟩ := p
  cases conf with
  | ok b => cases b <;> rfl
  | error e => rfl

theorem errorMessagesGet_of_mem (code t d : String)
    (h : (code, t) ∈ ERROR_MESSAGES) : errorMessagesGet code d = t := by
  simp only [ERROR_MESSAGES, List.mem_cons, List.not_mem_nil, or_false,
    Prod.mk.injEq] at h
  rcases h with ⟨rfl, rfl⟩ | ⟨rfl, rfl⟩ | ⟨rfl, rfl⟩ | ⟨rfl, rfl⟩
    | ⟨rfl, rfl⟩ | ⟨rfl, rfl⟩ <;> rfl

theorem errorMessagesGet_of_not_mem (code d : String)
    (h : code ∉ ERROR_MESSAGES.map Prod.fst) : errorMessagesGet code d = d := by
  unfold errorMessagesGet
  have hn : ERROR_MESSAGES.find? (fun p => p.1 == code) = none := by
    apply List.find?_eq_none.mpr
    intro x hx
    simp only [beq_eq_false_iff_ne, ne_eq, beq_iff_eq]
    intro hxe
    exact h (List.mem_map.mpr ⟨x, hx, hxe⟩)
  rw [hn]

/-! ## Claim theorems: deletion protocol -/

/-- Claim C6 (confirmed): `delete_batch` with `dry_run = True` issues no
remote delete call and returns a summary with exactly one DRY_RUN outcome
per input item, in input order. -/
theorem delete_batch_dry_run_simulates (region : String) (items : List SGItem) :
    (delete_batch region items true).2 = []
    ∧ (delete_batch region items true).1.results
      = items.map (fun it =>
          { sg_id := it.id.getD "", sg_name := it.name.getD "Unknown"
            region := region, status := DeleteStatus.dry_run })
    ∧ (delete_batch region items true).1.dry_run = items.length := by
  unfold delete_batch
  refine ⟨batch_fold_calls_dry region items _, ?_, ?_⟩
  · rw [batch_fold_results_dry]
    rfl
  · rw [batch_fold_dry_count]
    simp

/-- Claim C7 (confirmed): with `dry_run` false, `delete_security_group`
issues exactly one remote delete call and maps every failure of that call to
a FAILED result instead of re-raising (the embedding is total over all
remote outcomes); the attached message is the fixed-vocabulary translation
when the error code is known, the raw remote message (falling back to the
exception text) when it is not, and the exception text for non-ClientError
exceptions. -/
theorem delete_one_never_raises_and_translates (region i n : String)
    (remote : RemoteOutcome) :
    (delete_security_group region i n remote false).2 = [i]
    ∧ ((delete_security_group region i n remote false).1.status
        = DeleteStatus.failed ↔ remote ≠ .ok)
    ∧ (∀ code msg srep t, remote = .clientError (some code) msg srep →
        (code, t) ∈ ERROR_MESSAGES →
        (delete_security_group region i n remote false).1.error_message
          = some t)
    ∧ (∀ code msg srep, remote = .clientError code msg srep →
        code.getD "Unknown" ∉ ERROR_MESSAGES.map Prod.fst →
        (delete_security_group region i n remote false).1.error_message
          = some (msg.getD srep))
    ∧ (∀ srep, remote = .otherError srep →
        (delete_security_group region i n remote false).1.error_message
          = some srep) := by
  refine ⟨delete_calls_single region i n remote, ?_, ?_, ?_, ?_⟩
  · cases remote <;> simp [delete_security_group]
  · intro code msg srep t hrem hmem
    subst hrem
    simp only [delete_security_group, if_neg Bool.false_ne_true]
    simp [errorMessagesGet_of_mem code t _ hmem, Option.getD]
  · intro code msg srep hrem hnot
    subst hrem
    simp [delete_security_group, errorMessagesGet_of_not_mem _ _ hnot]
  · intro srep hrem
    subst hrem
    rfl

/-- Claim C8 (confirmed): in `delete_with_confirmation`, the outcomes are
the per-item `confirmStep` outcomes in input order, a declining confirm
callback and a raising confirm callback both produce a SKIPPED outcome with
no remote call, and only a True return reaches the
`delete_security_group` path. -/
theorem confirmation_failsafe (region : String) (dry_run : Bool)
    (items : List (SGItem × Except String Bool)) :
    (delete_with_confirmation region items dry_run).1.results
      = items.map (fun p => (confirmStep region dry_run p.1 p.2).1)
    ∧ (delete_with_confirmation region items dry_run).2
      = (items.map (fun p => (confirmStep region dry_run p.1 p.2).2)).flatten
    ∧ (∀ (item : SGItem) (e : String),
        confirmStep region dry_run item (.error e)
          = ({ sg_id := item.id.getD "", sg_name := item.name.getD "Unknown"
               region := region, status := DeleteStatus.skipped }, []))
    ∧ (∀ item : SGItem,
        confirmStep region dry_run item (.ok false)
          = ({ sg_id := item.id.getD "", sg_name := item.name.getD "Unknown"
               region := region, status := DeleteStatus.skipped }, []))
    ∧ (∀ item : SGItem,
        confirmStep region dry_run item (.ok true)
          = delete_security_group region (item.id.getD "")
              (item.name.getD "Unknown") item.remote dry_run) := by
  refine ⟨?_, ?_, fun item e => rfl, fun item => rfl, fun item => rfl⟩
  · unfold delete_with_confirmation
    rw [confirm_fold_results]
    rfl
  · unfold delete_with_confirmation
    rw [confirm_fold_calls]
    rfl

/-- Claim C9 (confirmed): any summary built by a sequence of `add_result`
calls starting from the empty summary satisfies
`total = deleted + failed + skipped + dry_run` and `|results| = total`. -/
theorem delete_summary_count_invariant (rs : List DeleteResult) :
    (rs.foldl DeleteSummary.add_result {}).total
      = (rs.foldl DeleteSummary.add_result {}).deleted
        + (rs.foldl DeleteSummary.add_result {}).failed
        + (rs.foldl DeleteSummary.add_result {}).skipped
        + (rs.foldl DeleteSummary.add_result {}).dry_run
    ∧ (rs.foldl DeleteSummary.add_result {}).results.length
      = (rs.foldl DeleteSummary.add_result {}).total := by
  have key : ∀ (l : List DeleteResult) (s : DeleteSummary),
      s.total = s.deleted + s.failed + s.skipped + s.dry_run →
      s.results.length = s.total →
      (l.foldl DeleteSummary.add_result s).total
          = (l.foldl DeleteSummary.add_result s).deleted
            + (l.foldl DeleteSummary.add_result s).failed
            + (l.foldl DeleteSummary.add_result s).skipped
            + (l.foldl DeleteSummary.add_result s).dry_run
        ∧ (l.foldl DeleteSummary.add_result s).results.length
          = (l.foldl DeleteSummary.add_result s).total := by
    intro l
    induction l with
    | nil => intro s h1 h2; exact ⟨h1, h2⟩
    | cons r t ih =>
      intro s h1 h2
      rw [List.foldl_cons]
      apply ih
      · cases hs : r.status <;>
          simp [DeleteSummary.add_result, hs] <;> omega
      · cases hs : r.status <;>
          simp [DeleteSummary.add_result, hs, h2]
  exact key rs {} rfl rfl

/-- Claim C10 (confirmed): at its public interface the cleaner defaults to
simulation for `delete_security_group` and `delete_batch` (omitting
`dry_run` yields DRY_RUN outcomes and no remote call), while
`delete_with_confirmation` defaults `dry_run` to False, so an approved item
triggers a real remote delete call — unless the caller explicitly passes
`dry_run = True`, which again suppresses every call. -/
theorem deletion_default_modes :
    (∀ region i n remote,
      delete_security_group region i n remote
        = ({ sg_id := i, sg_name := n, region := region
             status := DeleteStatus.dry_run }, []))
    ∧ (∀ region items, (delete_batch region items).2 = [])
    ∧ (∀ (region : String) (item : SGItem),
        (delete_with_confirmation region [(item, .ok true)]).2
          = [item.id.getD ""])
    ∧ (∀ region items, (delete_with_confirmation region items true).2 = []) := by
  refine ⟨fun region i n remote => rfl, ?_, ?_, ?_⟩
  · intro region items
    exact batch_fold_calls_dry region items _
  · intro region item
    show (confirmBatchStep region false ({}, []) (item, .ok true)).2 = _
    simp [confirmBatchStep, confirmStep, delete_calls_single]
  · intro region items
    unfold delete_with_confirmation
    rw [confirm_fold_calls]
    have : ∀ p ∈ items, (confirmStep region true p.1 p.2).2 = ([] : List String) :=
      fun p _ => confirm_step_calls_dry region p
    simp only [List.nil_append]
    rw [List.flatten_eq_nil_iff.mpr]
    intro l hl
    obtain ⟨p, hp, rfl⟩ := List.mem_map.mp hl
    exact confirm_step_calls_dry region p

/-! ## Witnesses: each hypothesis-bearing claim theorem evaluated at a
concrete input -/

/-- Witness for the C3 theorem at a two-group inventory with one group held
by the evidence set. -/
theorem scan_unused_subset_witness :
    (({ id := "sg-1" } : Resource)
        ∈ (sgScan "us-east-1"
            (.ok [{ id := "sg-1" }, { id := "sg-2" }])
            [.ok ["sg-2"]] false (.ok [])).unused_resources)
    ∧ ((∃ inv, (Except.ok [({ id := "sg-1" } : Resource), { id := "sg-2" }]
          : Except String (List Resource)) = .ok inv
          ∧ ({ id := "sg-1" } : Resource) ∈ inv)
        ∧ ∀ ev, get_resources_in_use [.ok ["sg-2"]] false (.ok []) = .ok ev →
            ({ id := "sg-1" } : Resource).id ∉ ev) :=
  ⟨by decide,
   scan_unused_subset_of_inventory_and_disjoint_from_evidence "us-east-1"
     (.ok [{ id := "sg-1" }, { id := "sg-2" }]) [.ok ["sg-2"]] false (.ok [])
     { id := "sg-1" } (by decide)⟩

/-- Witness for the amended C2 theorem: one clean region plus one region
failing with a non-empty message. -/
theorem partition_isolation_single_failure_witness :
    ("ConnectTimeout" ≠ "")
    ∧ ((scan_regions "security_group" ["eu-central-1", "sa-east-1"]
          ([("eu-central-1", okCleanResult)].map (fun p => (p.1, Except.ok p.2))
            ++ ("sa-east-1", Except.error "ConnectTimeout")
              :: ([] : List (String × ScanResult)).map
                (fun p => (p.1, Except.ok p.2)))).results_by_region
        = [("eu-central-1", okCleanResult)] ++ []
      ∧ ("sa-east-1", ["ConnectTimeout"])
          ∈ (scan_regions "security_group" ["eu-central-1", "sa-east-1"]
            ([("eu-central-1", okCleanResult)].map (fun p => (p.1, Except.ok p.2))
              ++ ("sa-east-1", Except.error "ConnectTimeout")
                :: ([] : List (String × ScanResult)).map
                  (fun p => (p.1, Except.ok p.2)))).errors
      ∧ (scan_regions "security_group" ["eu-central-1", "sa-east-1"]
          ([("eu-central-1", okCleanResult)].map (fun p => (p.1, Except.ok p.2))
            ++ ("sa-east-1", Except.error "ConnectTimeout")
              :: ([] : List (String × ScanResult)).map
                (fun p => (p.1, Except.ok p.2)))).total_resources
        = ((([("eu-central-1", okCleanResult)] : List (String × ScanResult)) ++ []).map
            (fun p : String × ScanResult => p.2.total_count)).sum
      ∧ (scan_regions "security_group" ["eu-central-1", "sa-east-1"]
          ([("eu-central-1", okCleanResult)].map (fun p => (p.1, Except.ok p.2))
            ++ ("sa-east-1", Except.error "ConnectTimeout")
              :: ([] : List (String × ScanResult)).map
                (fun p => (p.1, Except.ok p.2)))).total_unused
        = ((([("eu-central-1", okCleanResult)] : List (String × ScanResult)) ++ []).map
            (fun p : String × ScanResult => p.2.unused_count)).sum) :=
  ⟨by decide,
   partition_isolation_single_failure "security_group"
     ["eu-central-1", "sa-east-1"] [("eu-central-1", okCleanResult)] []
     "sa-east-1" "ConnectTimeout" (by decide)⟩

/-- Witness for the amended C5 theorem: a lone region succeeding with a
partial-fetch error sits in `results_by_region` and its error list is
recorded. -/
theorem region_membership_partition_witness :
    ("eu-west-1", partialErrResult)
        ∈ (scan_regions "security_group" ["eu-west-1"]
            [("eu-west-1", Except.ok partialErrResult)]).results_by_region
    ∧ ((∃ es, ("eu-west-1", es)
          ∈ (scan_regions "security_group" ["eu-west-1"]
              [("eu-west-1", Except.ok partialErrResult)]).errors)
        ↔ partialErrResult.errors ≠ []) :=
  (region_membership_partition "security_group" ["eu-west-1"]
      [("eu-west-1", Except.ok partialErrResult)] (by simp) "eu-west-1").1
    partialErrResult (by simp)

/-- Witness for the C7 theorem: a dependency-conflict error code is
translated to its fixed-vocabulary message. -/
theorem delete_one_translation_witness :
    (delete_security_group "us-east-1" "sg-1" "web"
        (.clientError (some "DependencyViolation") none "boom")
        false).1.error_message
      = some "Security group is still in use by another resource. Detach it from all resources before deletion." :=
  (delete_one_never_raises_and_translates "us-east-1" "sg-1" "web"
      (.clientError (some "DependencyViolation") none "boom")).2.2.1
    "DependencyViolation" none "boom" _ rfl (by decide)

end InfraGenie
